import Mathlib

/-!
Shallow embedding of the memory subsystem of `god_cli.py`: the date
resolver (`parse_date_query`), the action-item extraction heuristic
(`extract_action_items`), the metadata indexer
(`save_extracted_info_with_metadata` index write and
`rebuild_metadata_index`), the query builder (`execute_combined_search`,
`search_database_by_importance`) and the search-prerequisite validation
(`validate_database_connection`, `validate_search_prerequisites`).

Python strings here are Lean `String`s; all data flowing through the
modelled code paths is ASCII, where Python `str.lower` and `str.strip`
agree with the ASCII-only transformations below.  Machine-level details
that the modelled paths do not reach (Unicode case folding, SQL LIKE
wildcard characters inside user text) are noted at the definition that
abstracts them.
-/

/-- ASCII lower-casing of one character, the fragment of Python
`str.lower` exercised by the repository (all literals and fixtures are
ASCII). `Char.toLower` lowers exactly the ASCII uppercase range. -/
def pyLowerChar (c : Char) : Char := c.toLower

/-- Python `s.lower()` restricted to ASCII input. -/
def pyLower (s : String) : String := String.mk (s.data.map pyLowerChar)

/-- Whether `pat` occurs at the head of `l` (helper for substring search). -/
def startsWithCL : List Char → List Char → Bool
  | [], _ => true
  | _ :: _, [] => false
  | p :: ps, c :: cs => p = c && startsWithCL ps cs

/-- Whether `pat` occurs somewhere in `l` (helper for substring search). -/
def findSubCL (pat : List Char) : List Char → Bool
  | [] => startsWithCL pat []
  | c :: cs => startsWithCL pat (c :: cs) || findSubCL pat cs

/-- Python `sub in s` on strings: substring containment (the empty string
is contained in every string, as in Python). -/
def pyContains (s sub : String) : Bool := findSubCL sub.data s.data

/-- Split a character list on a single separator character, keeping empty
segments, exactly as Python `str.split(sep)` does for a one-character
separator. -/
def splitCharCL (sep : Char) : List Char → List (List Char)
  | [] => [[]]
  | c :: cs =>
    match splitCharCL sep cs with
    | [] => [[]]
    | x :: xs => if c = sep then [] :: x :: xs else (c :: x) :: xs

/-- Python `s.split(sep)` for a one-character separator `sep`. -/
def pySplitChar (s : String) (sep : Char) : List String :=
  (splitCharCL sep s.data).map String.mk

/-- ASCII whitespace, the fragment of Python `str.strip`'s character
class reached by the repository's data. -/
def isPySpace (c : Char) : Bool := c = ' ' || c = '\t' || c = '\n' || c = '\r'

/-- Python `s.strip()` restricted to ASCII whitespace. -/
def pyStrip (s : String) : String :=
  String.mk (((s.data.dropWhile isPySpace).reverse.dropWhile isPySpace).reverse)

/-- Python `s.replace(old, new)` for a one-character `old`: replace every
occurrence. -/
def pyReplaceChar (s : String) (old : Char) (new : String) : String :=
  String.intercalate new (pySplitChar s old)

/-- The single exception kind the modelled code paths can raise:
`ValueError`, from `datetime.replace` / `datetime.strptime` /
`datetime.fromisoformat` with out-of-range or malformed input. -/
inductive PyErr where
  | valueError
deriving DecidableEq, Repr

/-- A Python `datetime.date`-like value (the modelled code only reads the
date fields of its `datetime` values: `strftime` patterns `%Y %m %d %A %B`
and `weekday()`). -/
structure PyDate where
  year : Nat
  month : Nat
  day : Nat
deriving DecidableEq, Repr

/-- Gregorian leap-year rule, as used by Python `datetime`. -/
def isLeapYear (y : Nat) : Bool := (y % 4 = 0 && y % 100 ≠ 0) || y % 400 = 0

/-- Number of days in a month of a given year (Python `calendar` rule). -/
def daysInMonth (y m : Nat) : Nat :=
  if m = 2 then (if isLeapYear y then 29 else 28)
  else if m = 4 || m = 6 || m = 9 || m = 11 then 30
  else 31

/-- Cumulative day counts before each month in a non-leap year. -/
def cumDaysBeforeMonth (m : Nat) : Nat :=
  [0, 0, 31, 59, 90, 120, 151, 181, 212, 243, 273, 304, 334].getD m 0

/-- Day count of a proleptic-Gregorian date from 0001-01-01 (counting that
date as 0).  Matches Python `date.toordinal() - 1`. -/
def dayNumber (d : PyDate) : Nat :=
  let py := d.year - 1
  365 * py + py / 4 + py / 400 - py / 100
    + cumDaysBeforeMonth d.month
    + (if 2 < d.month && isLeapYear d.year then 1 else 0)
    + (d.day - 1)

/-- Python `datetime.weekday()`: Monday is 0 ... Sunday is 6.
0001-01-01 is a Monday in the proleptic Gregorian calendar, as in
Python's `datetime` module. -/
def pyWeekdayIdx (d : PyDate) : Nat := dayNumber d % 7

/-- Zero-padding to two digits, as in `strftime` `%m`/`%d`. -/
def pad2 (n : Nat) : String := if n < 10 then "0" ++ toString n else toString n

/-- Zero-padding to four digits, as in `strftime` `%Y`. -/
def pad4 (n : Nat) : String :=
  if n < 10 then "000" ++ toString n
  else if n < 100 then "00" ++ toString n
  else if n < 1000 then "0" ++ toString n
  else toString n

/-- `strftime('%Y-%m-%d')`. -/
def fmtYmd (d : PyDate) : String :=
  pad4 d.year ++ "-" ++ pad2 d.month ++ "-" ++ pad2 d.day

/-- `strftime('%A')`: full weekday name, capitalised (C locale). -/
def weekdayNameOf (d : PyDate) : String :=
  ["Monday", "Tuesday", "Wednesday", "Thursday", "Friday", "Saturday",
   "Sunday"].getD (pyWeekdayIdx d) ""

/-- `strftime('%B')`: full month name, capitalised (C locale). -/
def monthNameOf (d : PyDate) : String :=
  ["January", "February", "March", "April", "May", "June", "July",
   "August", "September", "October", "November", "December"].getD
    (d.month - 1) ""

/-- Python `now.replace(day=n)`: validates the new day against the
current month and year and raises `ValueError` when it is out of range
(in particular when `n ≤ 0`, the case `god_cli.py` hits at month
boundaries). -/
def pyReplaceDay (d : PyDate) (n : Int) : Except PyErr PyDate :=
  if 1 ≤ n ∧ n ≤ (daysInMonth d.year d.month : Int) then
    .ok { d with day := n.toNat }
  else .error .valueError

/-! ### ISO-8601 timestamp parsing (`datetime.fromisoformat`) -/

/-- Numeric value of a decimal digit character. -/
def digitVal (c : Char) : Nat := c.toNat - 48

/-- All characters are decimal digits. -/
def allDigits (l : List Char) : Bool := l.all Char.isDigit

/-- Decimal value of a digit-character list. -/
def natOfDigits (l : List Char) : Nat := l.foldl (fun a c => 10 * a + digitVal c) 0

/-- Read two decimal digits, returning their value and the rest. -/
def take2 : List Char → Option (Nat × List Char)
  | a :: b :: rest =>
    if a.isDigit && b.isDigit then some (10 * digitVal a + digitVal b, rest)
    else none
  | _ => none

/-- Valid `fromisoformat` UTC-offset tail: empty, or `±HH:MM` in range. -/
def validOffsetPart : List Char → Bool
  | [] => true
  | sgn :: rest =>
    (sgn = '+' || sgn = '-') &&
    (match take2 rest with
     | some (hh, ':' :: r2) =>
       hh < 24 &&
       (match take2 r2 with
        | some (mm, r3) => mm < 60 && r3.isEmpty
        | none => false)
     | _ => false)

/-- Valid fractional-second tail (`.ffffff`), possibly followed by an
offset. -/
def validFracPart : List Char → Bool
  | '.' :: rest =>
    !(rest.takeWhile Char.isDigit).isEmpty
      && validOffsetPart (rest.dropWhile Char.isDigit)
  | rest => validOffsetPart rest

/-- Valid `:SS` tail, possibly followed by fraction and offset. -/
def validSecPart : List Char → Bool
  | ':' :: r =>
    match take2 r with
    | some (ss, r2) => ss < 60 && validFracPart r2
    | none => false
  | r => validOffsetPart r

/-- Valid `HH:MM[...]` time-of-day string. -/
def validTimeOfDay (l : List Char) : Bool :=
  match take2 l with
  | some (hh, ':' :: r) =>
    hh < 24 &&
    (match take2 r with
     | some (mm, r2) => mm < 60 && validSecPart r2
     | none => false)
  | _ => false

/-- Valid tail after the 10-character date: empty, or a separator
(space or `T`) followed by a time of day. -/
def validTimeTail : List Char → Bool
  | [] => true
  | sep :: rest => (sep = ' ' || sep = 'T') && validTimeOfDay rest

/-- `datetime.fromisoformat`, restricted to the shapes the repository
produces (`YYYY-MM-DD[ HH:MM[:SS[.ffffff]][±HH:MM]]`, `T` separator also
accepted): returns the date fields, or `none` for `ValueError`.  The
time-of-day and offset are validated and discarded because every caller
reads only `%Y %m %d %A %B` of the result. -/
def fromisoformat (s : String) : Option PyDate :=
  match s.data with
  | y1 :: y2 :: y3 :: y4 :: '-' :: m1 :: m2 :: '-' :: d1 :: d2 :: rest =>
    if allDigits [y1, y2, y3, y4, m1, m2, d1, d2] && validTimeTail rest then
      let y := natOfDigits [y1, y2, y3, y4]
      let m := natOfDigits [m1, m2]
      let d := natOfDigits [d1, d2]
      if 1 ≤ y ∧ 1 ≤ m ∧ m ≤ 12 ∧ 1 ≤ d ∧ d ≤ daysInMonth y m then
        some ⟨y, m, d⟩
      else none
    else none
  | _ => none

/-- `datetime.strptime(query, '%Y-%m-%d')` success test: three
dash-separated all-digit fields (`%Y` up to 4 digits, `%m`/`%d` up to 2)
forming a valid calendar date. -/
def validStrptimeYmd (s : String) : Bool :=
  match pySplitChar s '-' with
  | [ys, ms, ds] =>
    let yl := ys.data
    let ml := ms.data
    let dl := ds.data
    !yl.isEmpty && yl.length ≤ 4 && allDigits yl &&
    !ml.isEmpty && ml.length ≤ 2 && allDigits ml &&
    !dl.isEmpty && dl.length ≤ 2 && allDigits dl &&
    (let y := natOfDigits yl
     let m := natOfDigits ml
     let d := natOfDigits dl
     decide (1 ≤ y ∧ 1 ≤ m ∧ m ≤ 12 ∧ 1 ≤ d ∧ d ≤ daysInMonth y m))
  | _ => false

/-! ### Date Resolver: `parse_date_query` (god_cli.py lines 1697-1731) -/

/-- The `weekday_map` dict of `parse_date_query`, in insertion order
(Python 3.7+ dicts iterate in insertion order). -/
def weekdayPairs : List (String × Nat) :=
  [("monday", 0), ("tuesday", 1), ("wednesday", 2), ("thursday", 3),
   ("friday", 4), ("saturday", 5), ("sunday", 6)]

/-- `parse_date_query(query)` with `datetime.now()` passed explicitly as
`now`.  Returns `.error .valueError` when the Python code raises (the
uncaught `ValueError` out of `now.replace(day=...)`), `.ok none` for the
"no match" `None` return, and `.ok (some k)` for a resolved date key. -/
def parse_date_query (now : PyDate) (query : String) : Except PyErr (Option String) :=
  let ql := pyLower query
  if pyContains ql "yesterday" then
    (pyReplaceDay now ((now.day : Int) - 1)).map (fun d => some (fmtYmd d))
  else if pyContains ql "today" then
    .ok (some (fmtYmd now))
  else if pyContains ql "this week" then
    (pyReplaceDay now ((now.day : Int) - (pyWeekdayIdx now : Int))).map
      (fun d => some (fmtYmd d))
  else if pyContains ql "last" && weekdayPairs.any (fun p => pyContains ql p.1) then
    match weekdayPairs.find? (fun p => pyContains ql p.1) with
    | some p =>
      let ds0 : Int := ((pyWeekdayIdx now : Int) - (p.2 : Int)).emod 7
      let ds : Int := if ds0 = 0 then 7 else ds0
      (pyReplaceDay now ((now.day : Int) - ds)).map (fun d => some (fmtYmd d))
    | none => .ok (if validStrptimeYmd query then some query else none)
  else
    .ok (if validStrptimeYmd query then some query else none)

/-! ### Extraction Pipeline: `extract_action_items` (god_cli.py lines 437-473) -/

/-- ASCII apostrophe (code point 39). -/
def apos : Char := Char.ofNat 39

/-- The fixed `action_patterns` list, in source order. -/
def action_patterns : List String :=
  ["todo:", "to do:", "action:", "task:", "next:",
   "remember to", "make sure to", "don" ++ String.mk [apos] ++ "t forget",
   "you should", "you need to"]

/-- One row of `get_conversation_history`: `(user_message,
assistant_response, timestamp, model_used)`. -/
structure Conv where
  user_msg : String
  assistant_msg : String
  timestamp : String
  model : String
deriving DecidableEq, Repr

/-- One staged action-item candidate (the dict appended to
`action_items`). -/
structure ActionItem where
  content : String
  timestamp : String
  model : String
  pattern : String
deriving DecidableEq, Repr

/-- The inner `for sentence in sentences` loop for one pattern: append
the first sentence whose lower-casing contains the pattern, then
`break`. -/
def innerScan (pat ts model : String) : List String → List ActionItem
  | [] => []
  | s :: rest =>
    if pyContains (pyLower s) pat then [⟨pyStrip s, ts, model, pat⟩]
    else innerScan pat ts model rest

/-- Candidates contributed by a single conversation row: the outer
`for pattern in action_patterns` loop over `content = user_msg + " " +
assistant_msg`. -/
def itemsForConv (c : Conv) : List ActionItem :=
  let content := c.user_msg ++ " " ++ c.assistant_msg
  let cl := pyLower content
  action_patterns.flatMap fun p =>
    if pyContains cl p then innerScan p c.timestamp c.model (pySplitChar content '.')
    else []

/-- The candidate-collection loop of `extract_action_items`, over the
scanned conversation rows (most recent 20, most-recent-first, as
returned by `get_conversation_history`). -/
def extract_action_items (convs : List Conv) : List ActionItem :=
  convs.flatMap itemsForConv

/-! ### Store: rows of `extracted_info` and `metadata_index` -/

/-- An `extracted_info` row, restricted to the columns the modelled
search/index paths read (`source_session`, `extraction_type`, `summary`,
`updated_at` are stored but never read by these paths). -/
structure ExtractedRow where
  id : Nat
  title : String
  content : String
  category : String
  tags : String
  topic : String
  importance_level : Int
  created_at : String
deriving DecidableEq, Repr

/-- A `metadata_index` row (`id` is `INTEGER PRIMARY KEY AUTOINCREMENT`). -/
structure IndexRow where
  id : Nat
  extracted_info_id : Nat
  date_key : String
  weekday : String
  month : String
  year : String
  topic_key : String
  category_key : String
  tags_key : String
deriving DecidableEq, Repr

/-- Health of the backing SQLite file, as observed by
`validate_database_connection`: its `try` block succeeds, or raises one
of the classified exceptions (missing tables, other operational error,
corruption, any other failure).  The same condition governs whether the
`COUNT(*)` queries elsewhere succeed. -/
inductive DbHealth where
  | ok
  | noTable
  | operr (msg : String)
  | corrupt (msg : String)
  | connFail (msg : String)
deriving DecidableEq, Repr

/-- Database state: the two tables the claims concern, plus the
`sqlite_sequence` counter for `metadata_index` (its `id` column is
AUTOINCREMENT, so SQLite hands out `seq+1, seq+2, ...` and never reuses
an id after `DELETE`; the model keeps the invariant `index_seq ≥` every
id ever issued, which SQLite maintains), and the health flag. -/
structure DBState where
  extracted : List ExtractedRow
  index : List IndexRow
  index_seq : Nat
  health : DbHealth
deriving Repr

/-! ### Indexer (god_cli.py lines 660-698 and 3005-3063) -/

/-- The date decomposition of `rebuild_metadata_index`:
`datetime.fromisoformat(created_at.replace('Z', '+00:00'))`, then
`%Y-%m-%d`, lower-cased `%A`, lower-cased `%B`, `%Y`; on any parse
failure the bare-`except` fallback
`(created_at[:10] if created_at else 'unknown', 'unknown', 'unknown',
'unknown')`. -/
def decomposeCreated (created_at : String) : String × String × String × String :=
  match fromisoformat (pyReplaceChar created_at 'Z' "+00:00") with
  | some dt =>
    (fmtYmd dt, pyLower (weekdayNameOf dt), pyLower (monthNameOf dt), pad4 dt.year)
  | none =>
    (if created_at = "" then "unknown" else String.mk (created_at.data.take 10),
     "unknown", "unknown", "unknown")

/-- The insertion loop of `rebuild_metadata_index`: one `metadata_index`
row per `extracted_info` row, in table order, with AUTOINCREMENT ids
`seq+1, seq+2, ...`.  `topic.lower() if topic else ''` agrees with
`pyLower` (lower-casing the empty string is the empty string). -/
def deriveRows : Nat → List ExtractedRow → List IndexRow
  | _, [] => []
  | seq, e :: rest =>
    let d := decomposeCreated e.created_at
    { id := seq + 1, extracted_info_id := e.id, date_key := d.1,
      weekday := d.2.1, month := d.2.2.1, year := d.2.2.2,
      topic_key := pyLower e.topic, category_key := pyLower e.category,
      tags_key := pyLower e.tags } :: deriveRows (seq + 1) rest

/-- `rebuild_metadata_index`: `DELETE FROM metadata_index`, re-derive one
row per `extracted_info` row, `conn.commit()`.  When `extracted_info` is
empty the code prints a message and calls `conn.close()` WITHOUT
`commit`; under sqlite3's default legacy transaction handling the
uncommitted `DELETE` is rolled back, so the state is unchanged. -/
def rebuild_metadata_index (s : DBState) : DBState :=
  if s.extracted.isEmpty then s
  else { s with
         index := deriveRows s.index_seq s.extracted,
         index_seq := s.index_seq + s.extracted.length }

/-- The `metadata_index` insert of `save_extracted_info_with_metadata`
(god_cli.py lines 676-690): keys derived from `datetime.now()` (passed
here explicitly as `now`), with `%A`/`%B` NOT lower-cased, and
lower-cased topic/category/tags. -/
def save_metadata_row (now : PyDate) (extracted_id : Nat)
    (topic category tags : String) (seq : Nat) : IndexRow :=
  { id := seq + 1, extracted_info_id := extracted_id,
    date_key := fmtYmd now, weekday := weekdayNameOf now,
    month := monthNameOf now, year := pad4 now.year,
    topic_key := pyLower topic, category_key := pyLower category,
    tags_key := pyLower tags }

/-! ### Query Builder (god_cli.py lines 1943-2049) -/

/-- The projection of the search `SELECT` lists: `title, content,
category, topic, importance_level, created_at, tags`. -/
structure SearchRow where
  title : String
  content : String
  category : String
  topic : String
  importance_level : Int
  created_at : String
  tags : String
deriving DecidableEq, Repr

/-- Project an `extracted_info` row onto the selected columns. -/
def selRow (e : ExtractedRow) : SearchRow :=
  ⟨e.title, e.content, e.category, e.topic, e.importance_level,
   e.created_at, e.tags⟩

/-- SQLite `field LIKE '%pat%'` for a pattern containing no `%`/`_`
wildcards (true of every pattern the code builds from its inputs here):
ASCII-case-insensitive substring containment. -/
def sqlLikeContains (field pat : String) : Bool :=
  pyContains (pyLower field) (pyLower pat)

/-- Lexicographic `≤` on character lists by code point. -/
def strLeCL : List Char → List Char → Bool
  | [], _ => true
  | _ :: _, [] => false
  | a :: as, b :: bs =>
    if a = b then strLeCL as bs else decide (a.toNat < b.toNat)

/-- SQLite BINARY-collation `≤` on TEXT values: byte order on UTF-8,
which coincides with code-point order. -/
def pyStrLe (a b : String) : Bool := strLeCL a.data b.data

/-- `ORDER BY importance_level DESC, created_at DESC` as a boolean
comparison: `a` sorts no later than `b`. -/
def rowLe (a b : SearchRow) : Bool :=
  decide (b.importance_level < a.importance_level) ||
    (a.importance_level == b.importance_level && pyStrLe b.created_at a.created_at)

/-- The `ORDER BY` comparison as a relation. -/
def rowLeProp (a b : SearchRow) : Prop := rowLe a b = true

instance : DecidableRel rowLeProp := fun a b => Bool.decEq (rowLe a b) true

/-- Apply the `ORDER BY` of the search queries.  SQL leaves the relative
order of rows equal under all sort keys unspecified; a stable sort of
the table-order row list realises one admissible outcome. -/
def sortRows (l : List SearchRow) : List SearchRow := l.insertionSort rowLeProp

/-- `search_database_by_importance(level)`:
`WHERE importance_level >= level ORDER BY importance_level DESC,
created_at DESC` over `extracted_info` alone (no join, no DISTINCT). -/
def search_database_by_importance (s : DBState) (level : Int) : List SearchRow :=
  sortRows ((s.extracted.filter fun e => level ≤ e.importance_level).map selRow)

/-- The `JOIN metadata_index mi ON ei.id = mi.extracted_info_id` row
set. -/
def joinedRows (s : DBState) : List (ExtractedRow × IndexRow) :=
  s.extracted.flatMap fun e =>
    (s.index.filter fun m => m.extracted_info_id = e.id).map fun m => (e, m)

/-- The `query_parts` list built by `execute_combined_search`, one
boolean predicate per non-empty criterion, in source order.  The date
criterion calls `parse_date_query`, which can raise (propagated here as
`.error`); when it returns `None` the code appends NO predicate, so the
date criterion is dropped. -/
def ecsParts (now : PyDate) (date_query topic category tags : String) :
    Except PyErr (List (ExtractedRow × IndexRow → Bool)) := do
  let dateParts ←
    if date_query ≠ "" then
      (parse_date_query now date_query).map fun po =>
        match po with
        | some pd => [fun em : ExtractedRow × IndexRow => em.2.date_key == pd]
        | none => []
    else .ok []
  let topicParts :=
    if topic ≠ "" then
      [fun em : ExtractedRow × IndexRow => sqlLikeContains em.2.topic_key (pyLower topic)]
    else []
  let categoryParts :=
    if category ≠ "" then
      [fun em : ExtractedRow × IndexRow => em.2.category_key == pyLower category]
    else []
  let tagParts :=
    if tags ≠ "" then
      let tag_list := (pySplitChar tags ',').map fun t => pyLower (pyStrip t)
      [fun em : ExtractedRow × IndexRow =>
        tag_list.any fun t => sqlLikeContains em.2.tags_key t]
    else []
  return dateParts ++ topicParts ++ categoryParts ++ tagParts

/-- `execute_combined_search` before its exception handler: empty
`query_parts` returns `[]`; otherwise `SELECT DISTINCT` the projected
columns of the join rows satisfying the AND of all parts, then
`ORDER BY` (SQLite applies DISTINCT before ORDER BY). -/
def execute_combined_search_core (now : PyDate) (s : DBState)
    (date_query topic category tags : String) : Except PyErr (List SearchRow) := do
  let parts ← ecsParts now date_query topic category tags
  if parts.isEmpty then return []
  return sortRows ((((joinedRows s).filter fun em => parts.all fun p => p em).map
    fun em => selRow em.1).dedup)

/-- `execute_combined_search`: the `except Exception` wrapper returns
`[]` on any raised error (including a `ValueError` escaping
`parse_date_query`). -/
def execute_combined_search (now : PyDate) (s : DBState)
    (date_query topic category tags : String) : List SearchRow :=
  match execute_combined_search_core now s date_query topic category tags with
  | .ok r => r
  | .error _ => []

/-! ### Search-prerequisite validation (god_cli.py lines 2943-3003) -/

/-- `validate_database_connection`: returns a `(bool, message)` pair
classifying the health of the database file. -/
def validate_database_connection (s : DBState) : Bool × String :=
  match s.health with
  | .ok => (true, "Database connection successful")
  | .noTable => (false, "Database tables not initialized. Run the CLI to create them.")
  | .operr m => (false, "Database operational error: " ++ m)
  | .corrupt m => (false, "Database corruption detected: " ++ m)
  | .connFail m => (false, "Database connection failed: " ++ m)

/-- Python truthiness of a `(bool, message)` tuple: a tuple is falsy
exactly when it is empty, and a pair has two components, so it is
always truthy — `not (ok, msg)` is `False` no matter what `ok` is. -/
def pyTruthyPair (_p : Bool × String) : Bool := true

/-- `validate_search_prerequisites`: the guard
`if not self.validate_database_connection(): return False` applies
Python `not` to the returned pair; then the two `COUNT(*)` queries run
(raising unless the tables are healthy, caught by the `except` which
returns `False`); an empty `extracted_info` returns `False`; an empty
`metadata_index` triggers `rebuild_metadata_index` and returns `True`;
otherwise `True`.  Returns the flag together with the possibly-rebuilt
state. -/
def validate_search_prerequisites (s : DBState) : Bool × DBState :=
  if !(pyTruthyPair (validate_database_connection s)) then (false, s)
  else
    match s.health with
    | .ok =>
      if s.extracted.length = 0 then (false, s)
      else if s.index.length = 0 then (true, rebuild_metadata_index s)
      else (true, s)
    | _ => (false, s)

/-- The behaviour claimed of `validate_search_prerequisites`: its
outcome is determined by table health and the two row counts alone —
the connection-check guard contributes nothing.  (Same body, with the
guard removed.) -/
def validate_search_prerequisites_countsOnly (s : DBState) : Bool × DBState :=
  match s.health with
  | .ok =>
    if s.extracted.length = 0 then (false, s)
    else if s.index.length = 0 then (true, rebuild_metadata_index s)
    else (true, s)
  | _ => (false, s)

/-! ### Concrete fixtures and shared lemmas -/

/-- A concrete `extracted_info` row used by several evaluations. -/
def sampleExtracted : ExtractedRow :=
  ⟨1, "T1", "C1", "code", "ai,ml", "python tips", 4, "2024-03-04 12:00:00"⟩

/-- The `metadata_index` row the save path wrote for `sampleExtracted`
(lower-cased keys, date matching its `created_at`). -/
def sampleIndexRow : IndexRow :=
  ⟨1, 1, "2024-03-04", "monday", "march", "2024", "python tips", "code", "ai,ml"⟩

/-- A consistent one-record database state. -/
def sampleDB : DBState := ⟨[sampleExtracted], [sampleIndexRow], 1, .ok⟩

/-- A state with no `extracted_info` rows but one orphaned
`metadata_index` row. -/
def orphanDB : DBState := ⟨[], [sampleIndexRow], 1, .ok⟩

/-- Forget the AUTOINCREMENT `id` column of an index row. -/
def eraseId (r : IndexRow) : IndexRow := { r with id := 0 }

theorem deriveRows_length (n : Nat) (xs : List ExtractedRow) :
    (deriveRows n xs).length = xs.length := by
  induction xs generalizing n with
  | nil => rfl
  | cons e rest ih => simp [deriveRows, ih]

theorem deriveRows_map_eraseId (n m : Nat) (xs : List ExtractedRow) :
    (deriveRows n xs).map eraseId = (deriveRows m xs).map eraseId := by
  induction xs generalizing n m with
  | nil => rfl
  | cons e rest ih => simp [deriveRows, eraseId, ih n.succ m.succ]

/-! ### Claim theorems -/

/-- C5: the claim says the resolver on an input containing "yesterday"
returns the date key of the previous calendar day and never raises.  On
the first day of a month the code computes
`now.replace(day=now.day - 1) = now.replace(day=0)`, which raises
`ValueError`: on 2024-03-01 the resolver raises instead of returning
"2024-02-29". -/
theorem parse_date_yesterday_raises_month_start :
    parse_date_query ⟨2024, 3, 1⟩ "yesterday" = .error .valueError := rfl

/-- C6: the claim says "last <weekday>" always resolves to the most
recent prior occurrence of that weekday.  When that occurrence falls in
the previous month the code computes `now.replace(day=now.day - days)`
with a non-positive day and raises `ValueError`: on Monday 2024-04-01,
"last monday" raises instead of returning "2024-03-25". -/
theorem parse_date_last_weekday_raises_month_start :
    parse_date_query ⟨2024, 4, 1⟩ "last monday" = .error .valueError := rfl

/-- C1: the claim says an unresolvable date criterion aborts the search
branch.  In `execute_combined_search` the resolver returns `None` for
"banana" (no match), the date predicate is silently skipped, and the
remaining topic criterion still produces the matching record — the query
runs as if no date had been given. -/
theorem combined_search_drops_unresolved_date :
    parse_date_query ⟨2024, 4, 10⟩ "banana" = .ok none ∧
      execute_combined_search ⟨2024, 4, 10⟩ sampleDB "banana" "python" "" "" =
        [selRow sampleExtracted] :=
  ⟨rfl, by decide⟩

/-- C2 counterexample: running `rebuild_metadata_index` twice does not
leave `metadata_index` byte-identical — `id` is AUTOINCREMENT and
`DELETE` does not reset `sqlite_sequence`, so the second run writes the
same derived values under strictly larger fresh ids. -/
theorem rebuild_twice_ids_differ :
    (rebuild_metadata_index (rebuild_metadata_index sampleDB)).index ≠
      (rebuild_metadata_index sampleDB).index := by decide

/-- C2 (amended): rebuilding twice is idempotent up to the AUTOINCREMENT
`id` column: the second run produces the same rows, in the same order,
with identical values in every column except `id`. -/
theorem rebuild_twice_same_rows_modulo_id (s : DBState) :
    ((rebuild_metadata_index (rebuild_metadata_index s)).index).map eraseId =
      ((rebuild_metadata_index s).index).map eraseId := by
  by_cases h : s.extracted.isEmpty
  · simp [rebuild_metadata_index, h]
  · simp only [rebuild_metadata_index, h, if_neg, Bool.false_eq_true,
      not_false_eq_true, if_false]
    exact deriveRows_map_eraseId _ _ _

/-- C3: the claim says the save-time `metadata_index` row equals the row
`rebuild_metadata_index` derives from the record.  For `sampleExtracted`
(created 2024-03-04, a Monday) the save path writes
`weekday = "Monday"` / `month = "March"` (`strftime` output, not
lower-cased) from `datetime.now()`, while the rebuild derives
`"monday"` / `"march"` from `created_at`, so the rows differ even with
the clock agreeing with `created_at` and the `id` column ignored. -/
theorem save_index_row_differs_from_rebuild :
    (save_metadata_row ⟨2024, 3, 4⟩ 1 "python tips" "code" "ai,ml" 0).weekday
        = "Monday" ∧
      (deriveRows 0 [sampleExtracted]).map IndexRow.weekday = ["monday"] ∧
      (deriveRows 0 [sampleExtracted]).map eraseId ≠
        [eraseId (save_metadata_row ⟨2024, 3, 4⟩ 1 "python tips" "code" "ai,ml" 0)] := by
  refine ⟨rfl, rfl, ?_⟩
  decide

/-- C9 counterexample: with no `extracted_info` rows and one orphaned
`metadata_index` row, `rebuild_metadata_index` aborts before committing
(its `DELETE` is rolled back by `conn.close()` without `commit`), so
after the run the two counts still disagree: 1 index row vs 0 records. -/
theorem rebuild_orphans_counts_differ :
    ¬ ((rebuild_metadata_index orphanDB).index.length =
        (rebuild_metadata_index orphanDB).extracted.length) := by decide

/-- C9 (amended): whenever at least one `extracted_info` row exists,
`rebuild_metadata_index` leaves exactly one `metadata_index` row per
`extracted_info` row. -/
theorem rebuild_counts_eq_of_nonempty (s : DBState) (h : s.extracted ≠ []) :
    (rebuild_metadata_index s).index.length =
      (rebuild_metadata_index s).extracted.length := by
  have h' : s.extracted.isEmpty = false := by
    simpa [List.isEmpty_iff] using h
  simp [rebuild_metadata_index, h', deriveRows_length]

/-- Witness for the amended C9 theorem at the concrete one-record
state. -/
theorem rebuild_counts_eq_of_nonempty_witness :
    (rebuild_metadata_index sampleDB).index.length =
      (rebuild_metadata_index sampleDB).extracted.length :=
  rebuild_counts_eq_of_nonempty sampleDB (by decide)

/-- C10: `validate_search_prerequisites` guards with
`if not self.validate_database_connection()`, but that call returns a
2-tuple, which Python treats as truthy no matter what the boolean inside
says; the guard can never fire, so the outcome coincides, on every
database state, with the counts-only computation (row counts, or an
exception from the count queries when the tables are unhealthy). -/
theorem search_prereq_ignores_connection_check (s : DBState) :
    validate_search_prerequisites s = validate_search_prerequisites_countsOnly s ∧
      pyTruthyPair (validate_database_connection s) = true :=
  ⟨rfl, rfl⟩

/-- Witness for the C10 theorem at the concrete one-record state. -/
theorem search_prereq_ignores_connection_check_witness :
    validate_search_prerequisites sampleDB =
        validate_search_prerequisites_countsOnly sampleDB ∧
      pyTruthyPair (validate_database_connection sampleDB) = true :=
  search_prereq_ignores_connection_check sampleDB

/-- A conversation whose single sentence contains two distinct
action-item phrases. -/
def twoPatternConv : Conv := ⟨"todo: x action: y", "", "t1", "m1"⟩

/-- C4 counterexample: the claim says no sentence yields more than one
candidate.  A conversation whose text has no period is a single
sentence; when that sentence contains both "todo:" and "action:" the
scan emits two candidates for it (one per pattern), because the `break`
leaves only the inner sentence loop, not the pattern loop. -/
theorem one_sentence_two_candidates :
    extract_action_items [twoPatternConv] =
        [⟨"todo: x action: y", "t1", "m1", "todo:"⟩,
         ⟨"todo: x action: y", "t1", "m1", "action:"⟩] ∧
      (pySplitChar (twoPatternConv.user_msg ++ " " ++ twoPatternConv.assistant_msg)
          '.').length = 1 :=
  ⟨rfl, rfl⟩

theorem innerScan_eq_find (p ts md : String) (ss : List String) :
    innerScan p ts md ss =
      match ss.find? (fun s => pyContains (pyLower s) p) with
      | some s => [⟨pyStrip s, ts, md, p⟩]
      | none => [] := by
  induction ss with
  | nil => rfl
  | cons s rest ih =>
    by_cases h : pyContains (pyLower s) p
    · simp [innerScan, h, List.find?_cons_of_pos]
    · simp only [innerScan, h, if_false, Bool.false_eq_true, ih]
      rw [List.find?_cons_of_neg]
      simpa using h

theorem patternLoop_eq_filterMap (ts md cl : String) (ss : List String) :
    ∀ P : List String,
      (P.flatMap fun p => if pyContains cl p then innerScan p ts md ss else []) =
        (P.filter fun p => pyContains cl p).filterMap fun p =>
          (ss.find? fun s => pyContains (pyLower s) p).map fun s =>
            ⟨pyStrip s, ts, md, p⟩ := by
  intro P
  induction P with
  | nil => rfl
  | cons p P ih =>
    rw [List.flatMap_cons, List.filter_cons]
    by_cases h : pyContains cl p = true
    · rw [if_pos h, if_pos h, innerScan_eq_find, ih, List.filterMap_cons]
      cases hfind : ss.find? fun s => pyContains (pyLower s) p <;> simp [hfind]
    · rw [if_neg h, if_neg h, List.nil_append, ih]

/-- C4 (amended): per conversation, the heuristic emits one candidate
per PATTERN occurring in the case-folded combined text — namely the
first `.`-separated sentence whose lower-casing contains that pattern,
stripped — rather than one candidate per matching sentence: one sentence
can yield several candidates (one per pattern it contains first), and a
sentence whose pattern already matched an earlier sentence yields
none. -/
theorem extract_action_items_per_pattern (convs : List Conv) :
    extract_action_items convs = convs.flatMap fun c =>
      (action_patterns.filter fun p =>
          pyContains (pyLower (c.user_msg ++ " " ++ c.assistant_msg)) p).filterMap
        fun p =>
          ((pySplitChar (c.user_msg ++ " " ++ c.assistant_msg) '.').find? fun s =>
              pyContains (pyLower s) p).map fun s =>
            ⟨pyStrip s, c.timestamp, c.model, p⟩ := by
  have hfun : ∀ c : Conv, itemsForConv c =
      (action_patterns.filter fun p =>
          pyContains (pyLower (c.user_msg ++ " " ++ c.assistant_msg)) p).filterMap
        fun p =>
          ((pySplitChar (c.user_msg ++ " " ++ c.assistant_msg) '.').find? fun s =>
              pyContains (pyLower s) p).map fun s =>
            ⟨pyStrip s, c.timestamp, c.model, p⟩ := by
    intro c
    simpa [itemsForConv] using
      patternLoop_eq_filterMap c.timestamp c.model
        (pyLower (c.user_msg ++ " " ++ c.assistant_msg))
        (pySplitChar (c.user_msg ++ " " ++ c.assistant_msg) '.') action_patterns
  unfold extract_action_items
  exact congrArg (convs.flatMap) (funext hfun)

theorem charToNat_inj {a b : Char} (h : a.toNat = b.toNat) : a = b := by
  have h2 := congrArg Char.ofNat h
  simpa [Char.ofNat_toNat] using h2

theorem strLeCL_total : ∀ x y : List Char, strLeCL x y = true ∨ strLeCL y x = true
  | [], _ => Or.inl rfl
  | _ :: _, [] => Or.inr rfl
  | a :: as, b :: bs => by
    by_cases hab : a = b
    · subst hab
      simpa [strLeCL] using strLeCL_total as bs
    · have hn : a.toNat ≠ b.toNat := fun h => hab (charToNat_inj h)
      have hba : b ≠ a := fun h => hab h.symm
      rcases Nat.lt_or_ge a.toNat b.toNat with h | h
      · exact Or.inl (by simp [strLeCL, hab, h])
      · have : b.toNat < a.toNat := lt_of_le_of_ne h (fun e => hn e.symm)
        exact Or.inr (by simp [strLeCL, hba, this])

theorem strLeCL_trans :
    ∀ x y z : List Char, strLeCL x y = true → strLeCL y z = true →
      strLeCL x z = true
  | [], _, _, _, _ => rfl
  | a :: as, [], z, hxy, _ => by simp [strLeCL] at hxy
  | a :: as, b :: bs, [], _, hyz => by simp [strLeCL] at hyz
  | a :: as, b :: bs, c :: cs, hxy, hyz => by
    by_cases hab : a = b <;> by_cases hbc : b = c
    · subst hab; subst hbc
      simp only [strLeCL, if_pos rfl] at hxy hyz ⊢
      exact strLeCL_trans as bs cs hxy hyz
    · subst hab
      simpa [strLeCL, hbc] using hyz
    · subst hbc
      simpa [strLeCL, hab] using hxy
    · simp only [strLeCL, if_neg hab, decide_eq_true_eq] at hxy
      simp only [strLeCL, if_neg hbc, decide_eq_true_eq] at hyz
      have hac : a.toNat < c.toNat := Nat.lt_trans hxy hyz
      have hne : a ≠ c := by
        intro e
        subst e
        exact absurd rfl (Nat.ne_of_lt hac).elim
      simp [strLeCL, hne, hac]

instance : IsTrans SearchRow rowLeProp := by
  constructor
  intro a b c hab hbc
  simp only [rowLeProp, rowLe, Bool.or_eq_true, Bool.and_eq_true,
    decide_eq_true_eq, beq_iff_eq] at hab hbc ⊢
  rcases hab with h1 | ⟨h1, h2⟩ <;> rcases hbc with h3 | ⟨h3, h4⟩
  · exact Or.inl (lt_trans h3 h1)
  · exact Or.inl (h3 ▸ h1)
  · exact Or.inl (h1 ▸ h3)
  · exact Or.inr ⟨h1.trans h3, strLeCL_trans _ _ _ h4 h2⟩

instance : IsTotal SearchRow rowLeProp := by
  constructor
  intro a b
  simp only [rowLeProp, rowLe, Bool.or_eq_true, Bool.and_eq_true,
    decide_eq_true_eq, beq_iff_eq]
  rcases lt_trichotomy a.importance_level b.importance_level with h | h | h
  · exact Or.inr (Or.inl h)
  · rcases strLeCL_total b.created_at.data a.created_at.data with hs | hs
    · exact Or.inl (Or.inr ⟨h, hs⟩)
    · exact Or.inr (Or.inr ⟨h.symm, hs⟩)
  · exact Or.inl (Or.inl h)

/-- C8: `search_database_by_importance(level)` returns exactly the
`extracted_info` rows with `importance_level >= level` (a floor, with
multiplicity: the result is a permutation of the filtered table), and
the returned list is ordered by `importance_level` descending, ties
broken by `created_at` descending (BINARY text order). -/
theorem importance_search_floor_and_sorted (s : DBState) (level : Int) :
    List.Perm (search_database_by_importance s level)
        ((s.extracted.filter fun e => level ≤ e.importance_level).map selRow) ∧
      (search_database_by_importance s level).Pairwise fun a b =>
        b.importance_level < a.importance_level ∨
          (a.importance_level = b.importance_level ∧
            pyStrLe b.created_at a.created_at = true) := by
  constructor
  · exact List.perm_insertionSort _ _
  · have h := List.sorted_insertionSort rowLeProp
      ((s.extracted.filter fun e => level ≤ e.importance_level).map selRow)
    refine List.Pairwise.imp ?_ h
    intro a b hab
    simpa only [rowLeProp, rowLe, Bool.or_eq_true, Bool.and_eq_true,
      decide_eq_true_eq, beq_iff_eq, pyStrLe] using hab

/-- Witness for the C8 theorem at a concrete state and level. -/
theorem importance_search_floor_and_sorted_witness :
    List.Perm (search_database_by_importance sampleDB 3)
        ((sampleDB.extracted.filter fun e => (3 : Int) ≤ e.importance_level).map
          selRow) ∧
      (search_database_by_importance sampleDB 3).Pairwise fun a b =>
        b.importance_level < a.importance_level ∨
          (a.importance_level = b.importance_level ∧
            pyStrLe b.created_at a.created_at = true) :=
  importance_search_floor_and_sorted sampleDB 3

/-- C7: for a combined search supplying a topic and a two-element tag
list (and no date or category criterion), a joined record appears in the
result set iff its `topic_key` contains the topic (ASCII
case-insensitive substring) AND its `tags_key` contains the first tag OR
the second: criteria AND across each other while the tag list ORs
internally. -/
theorem combined_search_topic_and_tags_iff
    (now : PyDate) (s : DBState) (topic ts a b : String) (p : SearchRow)
    (ht : topic ≠ "") (hts : ts ≠ "") (hsplit : pySplitChar ts ',' = [a, b]) :
    p ∈ execute_combined_search now s "" topic "" ts ↔
      ∃ e ∈ s.extracted, ∃ m ∈ s.index, m.extracted_info_id = e.id ∧ selRow e = p ∧
        (sqlLikeContains m.topic_key (pyLower topic) = true ∧
          (sqlLikeContains m.tags_key (pyLower (pyStrip a)) = true ∨
           sqlLikeContains m.tags_key (pyLower (pyStrip b)) = true)) := by
  have hparts : ecsParts now "" topic "" ts = Except.ok
      [fun em : ExtractedRow × IndexRow => sqlLikeContains em.2.topic_key (pyLower topic),
       fun em : ExtractedRow × IndexRow =>
         [pyLower (pyStrip a), pyLower (pyStrip b)].any fun t =>
           sqlLikeContains em.2.tags_key t] := by
    simp [ecsParts, ht, hts, hsplit]
  simp only [execute_combined_search, execute_combined_search_core, hparts,
    Bind.bind, Except.bind, List.isEmpty_cons, Bool.false_eq_true, if_false,
    pure, Except.pure]
  rw [show ∀ l : List SearchRow, sortRows l = l.insertionSort rowLeProp from
    fun l => rfl]
  rw [List.mem_insertionSort, List.mem_dedup]
  simp only [List.mem_map, List.mem_filter, joinedRows, List.mem_flatMap,
    List.all_cons, List.all_nil, Bool.and_eq_true, Bool.and_true,
    List.any_cons, List.any_nil, Bool.or_eq_true, Bool.or_false]
  simp only [decide_eq_true_eq]
  constructor
  · rintro ⟨⟨e, m⟩, ⟨⟨e2, he2, m2, ⟨hm2, hid⟩, heq⟩, htop, htags⟩, hsel⟩
    obtain ⟨he, hm⟩ : e2 = e ∧ m2 = m := by
      simpa [Prod.ext_iff] using heq
    subst he
    subst hm
    exact ⟨e2, he2, m2, hm2, hid, hsel, htop, htags⟩
  · rintro ⟨e, he, m, hm, hid, hsel, htop, htags⟩
    exact ⟨(e, m), ⟨⟨e, he, m, ⟨hm, hid⟩, rfl⟩, htop, htags⟩, hsel⟩

/-- Witness for the C7 theorem: in the concrete one-record database,
topic "python" with tags "ai,ml" finds the record (its `topic_key`
contains "python" and its `tags_key` contains "ai"). -/
theorem combined_search_topic_and_tags_iff_witness :
    selRow sampleExtracted ∈
      execute_combined_search ⟨2024, 4, 10⟩ sampleDB "" "python" "" "ai,ml" :=
  (combined_search_topic_and_tags_iff ⟨2024, 4, 10⟩ sampleDB "python" "ai,ml"
      "ai" "ml" (selRow sampleExtracted) (by decide) (by decide) (by decide)).mpr
    ⟨sampleExtracted, by decide, sampleIndexRow, by decide, by decide, rfl,
      by decide, Or.inl (by decide)⟩
